import Mathlib

/-
Shallow embedding of the videocrc GStreamer element (src/gstvideocrc.c).

Machine integers are modelled as Nat with explicit reduction mod 2^32 where
the C code works on 32-bit unsigned values.  guint8 loads are modelled by a
read that reduces mod 256.  The element instance GstVideocrc is a record of
the fields the C struct carries; per-frame processing is a pure function from
the instance state and a buffer description to a flow result, the updated
state and the emitted (frame number, crc) record.
-/

/-- C macro ALIGN(num, to) = ((num + (to-1)) & ~(to-1)) from gstvideocrc.c line 41,
evaluated in 32-bit arithmetic: for a power-of-two `to`, the complement
~(to-1) read as an unsigned 32-bit value is 2^32 - to. -/
def ALIGN (num a : Nat) : Nat := (num + (a - 1)) &&& (2 ^ 32 - a)

/-- Default CRC polynomial, gstvideocrc.c line 43. -/
def GST_VIDEO_DEFAULT_CRC_MASK : Nat := 0x04C11DB7

/-- The GstVideocrc instance struct: the fields used by gstvideocrc.c.
The logfile FILE pointer is abstracted to whether a log file is open, and the
filename string to an opaque token (its contents are never inspected). -/
structure GstVideocrc where
  crc_mask : Nat
  frame_num : Nat
  crc : Nat
  logfile : Bool
  filename : Option Nat
  width : Nat
  height : Nat
  stride_w : Nat
  stride_h : Nat
  offset : Nat
  size : Nat
  crc32bit_table : List Nat

/-- One iteration of the inner bit loop of gst_videocrc_init_crc32bit_table
(gstvideocrc.c lines 163-168): if the top bit (TOPBIT = 1 << 31) of the
remainder is set, shift left and xor with the polynomial, else shift left;
all on unsigned 32-bit values. -/
def crc32_table_step (polynomial remainder : Nat) : Nat :=
  if remainder.testBit 31 then ((remainder <<< 1) % 2 ^ 32) ^^^ polynomial
  else (remainder <<< 1) % 2 ^ 32

/-- gst_videocrc_init_crc32bit_table (gstvideocrc.c lines 152-171): for each
i in [0,256) seed the remainder with i << (WIDTH - 8) = i << 24 and run the
8-step bit loop; entry i of the table is the final remainder. -/
def gst_videocrc_init_crc32bit_table (crc_mask : Nat) : List Nat :=
  (List.range 256).map (fun i =>
    (List.range 8).foldl (fun remainder _ => crc32_table_step crc_mask remainder)
      ((i <<< 24) % 2 ^ 32))

/-- gst_videocrc_reset (gstvideocrc.c lines 129-136). -/
def gst_videocrc_reset (s : GstVideocrc) : GstVideocrc :=
  { s with crc_mask := GST_VIDEO_DEFAULT_CRC_MASK, frame_num := 0, crc := 0,
           logfile := false }

/-- The zero-initialised GObject instance memory before gst_videocrc_init runs. -/
def gst_videocrc_instance0 : GstVideocrc :=
  { crc_mask := 0, frame_num := 0, crc := 0, logfile := false, filename := none,
    width := 0, height := 0, stride_w := 0, stride_h := 0, offset := 0, size := 0,
    crc32bit_table := List.replicate 256 0 }

/-- gst_videocrc_init (gstvideocrc.c lines 138-144): reset, then generate the
CRC table from the (freshly reset, hence default) crc_mask. -/
def gst_videocrc_init : GstVideocrc :=
  let s := gst_videocrc_reset gst_videocrc_instance0
  { s with crc32bit_table := gst_videocrc_init_crc32bit_table s.crc_mask }

/-- gst_videocrc_set_info (gstvideocrc.c lines 173-196): store width, height
and size from the negotiated video info, the 128-aligned stride, the
32-aligned padded height, and the reported offset of plane 1. -/
def gst_videocrc_set_info (width height size offset : Nat) (s : GstVideocrc) :
    GstVideocrc :=
  { s with width := width, height := height,
           stride_w := ALIGN width 128, stride_h := ALIGN height 32,
           offset := offset, size := size }

/-- GStreamer element states; READY and NULL are the states in which
gst_videocrc_set_location accepts a change (PAUSED/PLAYING are the
processing states). -/
inductive GstState
  | null
  | ready
  | paused
  | playing
deriving DecidableEq

/-- gst_videocrc_set_location (gstvideocrc.c lines 319-353): if the element
state is neither READY nor NULL the call warns and returns FALSE leaving the
stored filename untouched; otherwise the filename is replaced by the new
location (NULL clears it) and the call returns TRUE.  The state is read from
the element under the object lock; it is passed here as an argument. -/
def gst_videocrc_set_location (s : GstVideocrc) (state : GstState)
    (location : Option Nat) : Bool × GstVideocrc :=
  if state ≠ GstState.ready ∧ state ≠ GstState.null then
    (false, s)
  else
    (true, { s with filename := location })

/-- The two writable properties of the element (gstvideocrc.c lines 59-64):
location carries the element state observed by set_location. -/
inductive GProperty
  | location (state : GstState) (loc : Option Nat)
  | crc_mask (v : Nat)

/-- gst_videocrc_set_property (gstvideocrc.c lines 355-372): PROP_LOCATION
delegates to set_location; PROP_CRC_MASK stores the new mask and does nothing
else. -/
def gst_videocrc_set_property (s : GstVideocrc) : GProperty → GstVideocrc
  | GProperty.location st loc => (gst_videocrc_set_location s st loc).2
  | GProperty.crc_mask v => { s with crc_mask := v }

/-- A guint8 load from a mapped byte view: the value of a byte is its low
8 bits. -/
def readByte (buf : Nat → Nat) (off : Nat) : Nat := buf off % 256

/-- Bitwise complement of an unsigned 32-bit value (the C expression ~CRC on a
guint32). -/
def compl32 (x : Nat) : Nat := x ^^^ (2 ^ 32 - 1)

/-- Per-byte CRC update on the planar (ion) path, gstvideocrc.c lines 266-267:
crc_pos = ((CRC >> 24) ^ byte) & 0xFF; CRC = (CRC << 8) ^ table[crc_pos]. -/
def planarStep (table : List Nat) (CRC b : Nat) : Nat :=
  ((CRC <<< 8) % 2 ^ 32) ^^^ table.getD (((CRC >>> 24) ^^^ b) &&& 0xFF) 0

/-- Per-byte CRC update on the linear path, gstvideocrc.c line 300:
CRC = (CRC << 8) ^ table[(CRC >> 24) ^ byte], with no explicit & 0xFF on the
index. -/
def linearStep (table : List Nat) (CRC b : Nat) : Nat :=
  ((CRC <<< 8) % 2 ^ 32) ^^^ table.getD ((CRC >>> 24) ^^^ b) 0

/-- Luma loop of the planar path (gstvideocrc.c lines 262-271): rows
i in [0, height); per row, j runs over [0, width >> 1) and k starts at 0,
reading bytes at i*stride_w + k for k = 2j and k = 2j+1 and folding each
through the table update. -/
def lumaPass (s : GstVideocrc) (buf : Nat → Nat) (crc0 : Nat) : Nat :=
  (List.range s.height).foldl (fun CRC i =>
    (List.range (s.width / 2)).foldl (fun CRC j =>
      planarStep s.crc32bit_table
        (planarStep s.crc32bit_table CRC (readByte buf (i * s.stride_w + 2 * j)))
        (readByte buf (i * s.stride_w + (2 * j + 1)))) CRC) crc0

/-- Chroma-Cb loop (gstvideocrc.c lines 275-281): rows i in [0, height/2);
j steps by 2 over [0, width), i.e. j = 2t for t in [0, (width+1)/2), reading
the byte at stride_w * stride_h + i * stride_w + j. -/
def cbPass (s : GstVideocrc) (buf : Nat → Nat) (crc0 : Nat) : Nat :=
  (List.range (s.height / 2)).foldl (fun CRC i =>
    (List.range ((s.width + 1) / 2)).foldl (fun CRC t =>
      planarStep s.crc32bit_table CRC
        (readByte buf (s.stride_w * s.stride_h + i * s.stride_w + 2 * t))) CRC) crc0

/-- Chroma-Cr loop (gstvideocrc.c lines 285-291): same traversal as the Cb
loop but reading the byte at stride_w * stride_h + i * stride_w + j + 1. -/
def crPass (s : GstVideocrc) (buf : Nat → Nat) (crc0 : Nat) : Nat :=
  (List.range (s.height / 2)).foldl (fun CRC i =>
    (List.range ((s.width + 1) / 2)).foldl (fun CRC t =>
      planarStep s.crc32bit_table CRC
        (readByte buf (s.stride_w * s.stride_h + i * s.stride_w + (2 * t + 1)))) CRC) crc0

/-- The planar (ion) branch of gst_videocrc_transform_frame_ip
(gstvideocrc.c lines 261-292): CRC starts at 0, the luma loop runs, CRC is
complemented, the Cb loop continues from that value, CRC is complemented, the
Cr loop continues, and a final complement gives the frame checksum. -/
def gst_videocrc_planar_crc (s : GstVideocrc) (buf : Nat → Nat) : Nat :=
  compl32 (crPass s buf (compl32 (cbPass s buf (compl32 (lumaPass s buf 0)))))

/-- The linear branch of gst_videocrc_transform_frame_ip (gstvideocrc.c lines
295-304): one pass over every byte of the mapped buffer in order, then one
final complement. -/
def gst_videocrc_linear_crc (table : List Nat) (data : List Nat) : Nat :=
  compl32 (data.foldl (fun CRC b => linearStep table CRC (b % 256)) 0)

/-- Flow result of the transform function. -/
inductive GstFlowReturn
  | ok
  | error
deriving DecidableEq

/-- The (frame number, checksum) pair emitted per frame via GST_INFO_OBJECT
and, when a log file is open, fprintf (gstvideocrc.c lines 308-314). -/
structure FrameRecord where
  frame_index : Nat
  checksum : Nat

/-- A frame buffer as gst_videocrc_transform_frame_ip sees it: either it
carries GstIonBufFdMeta (fd, size, offset) and is mmapped — the view is the
mapped bytes; mapOk records whether the mmap call succeeded, and the source
performs no check of the mmap result — or it is a plain buffer mapped with
gst_buffer_map, whose bytes are data. -/
inductive GstBufferKind
  | ion (fd : Nat) (size : Nat) (offset : Nat) (mapOk : Bool) (view : Nat → Nat)
  | linear (data : List Nat)

/-- gst_videocrc_transform_frame_ip (gstvideocrc.c lines 227-317): compute
the planar checksum for ion buffers (the mmap result is never tested for
failure) or the linear checksum otherwise, store it, increment frame_num, emit
the record, and return GST_FLOW_OK on every path. -/
def gst_videocrc_transform_frame_ip (s : GstVideocrc) (buf : GstBufferKind) :
    GstFlowReturn × GstVideocrc × FrameRecord :=
  let CRC : Nat :=
    match buf with
    | GstBufferKind.ion _ _ _ _ view => gst_videocrc_planar_crc s view
    | GstBufferKind.linear data => gst_videocrc_linear_crc s.crc32bit_table data
  let s' := { s with crc := CRC, frame_num := s.frame_num + 1 }
  (GstFlowReturn.ok, s', { frame_index := s'.frame_num, checksum := CRC })

/-- Sequential processing of a list of frames: the per-frame transform is
invoked once per frame by the single pipeline thread, threading the instance
state; the emitted records are collected in order. -/
def gst_videocrc_process : GstVideocrc → List GstBufferKind →
    GstVideocrc × List FrameRecord
  | s, [] => (s, [])
  | s, b :: bs =>
    let r := gst_videocrc_transform_frame_ip s b
    let rest := gst_videocrc_process r.2.1 bs
    (rest.1, r.2.2 :: rest.2)

/-- The byte offsets the luma loop reads, in traversal order (gstvideocrc.c
lines 262-271). -/
def luma_read_offsets (s : GstVideocrc) : List Nat :=
  (List.range s.height).flatMap (fun i =>
    (List.range (s.width / 2)).flatMap (fun j =>
      [i * s.stride_w + 2 * j, i * s.stride_w + (2 * j + 1)]))

/-- The byte offsets the Cb loop reads, in traversal order (gstvideocrc.c
line 277). -/
def cb_read_offsets (s : GstVideocrc) : List Nat :=
  (List.range (s.height / 2)).flatMap (fun i =>
    (List.range ((s.width + 1) / 2)).map (fun t =>
      s.stride_w * s.stride_h + i * s.stride_w + 2 * t))

/-- The byte offsets the Cr loop reads, in traversal order (gstvideocrc.c
line 287). -/
def cr_read_offsets (s : GstVideocrc) : List Nat :=
  (List.range (s.height / 2)).flatMap (fun i =>
    (List.range ((s.width + 1) / 2)).map (fun t =>
      s.stride_w * s.stride_h + i * s.stride_w + (2 * t + 1)))

/-- All byte offsets the planar branch reads from the mapped view. -/
def planar_read_offsets (s : GstVideocrc) : List Nat :=
  luma_read_offsets s ++ cb_read_offsets s ++ cr_read_offsets s

/-- Cb read offsets as the specification words them: base equal to the
chroma-plane byte offset stored from format negotiation (the start offset of
the second plane reported by the negotiated format), plus row times padded
stride plus the even column. -/
def spec_cb_read_offsets (s : GstVideocrc) : List Nat :=
  (List.range (s.height / 2)).flatMap (fun i =>
    (List.range ((s.width + 1) / 2)).map (fun t =>
      s.offset + i * s.stride_w + 2 * t))

/-- Folding the per-byte table update over a list of bytes from a given seed:
one plane digest of the cascade. -/
def planeDigest (table : List Nat) (seed : Nat) (bytes : List Nat) : Nat :=
  bytes.foldl (planarStep table) seed

/-- The bytes a view holds at a list of offsets. -/
def bytesAt (buf : Nat → Nat) (offs : List Nat) : List Nat :=
  offs.map (readByte buf)

/-- Folding over a flattened list is the nested fold. -/
theorem foldl_flatMap {α β γ : Type} (g : γ → List α) (f : β → α → β) (b : β)
    (l : List γ) :
    (l.flatMap g).foldl f b = l.foldl (fun x c => (g c).foldl f x) b := by
  induction l generalizing b with
  | nil => rfl
  | cons hd tl ih =>
    rw [List.flatMap_cons, List.foldl_append]
    exact ih _

/-- The luma loop is the fold of the table update over the luma read offsets. -/
theorem lumaPass_eq (s : GstVideocrc) (buf : Nat → Nat) (c : Nat) :
    lumaPass s buf c = (luma_read_offsets s).foldl
      (fun CRC off => planarStep s.crc32bit_table CRC (readByte buf off)) c := by
  unfold lumaPass luma_read_offsets
  rw [foldl_flatMap]
  have hfun : (fun (x : Nat) (i : Nat) =>
      ((List.range (s.width / 2)).flatMap (fun j =>
        [i * s.stride_w + 2 * j, i * s.stride_w + (2 * j + 1)])).foldl
        (fun CRC off => planarStep s.crc32bit_table CRC (readByte buf off)) x) =
      (fun CRC i => (List.range (s.width / 2)).foldl (fun CRC j =>
        planarStep s.crc32bit_table
          (planarStep s.crc32bit_table CRC (readByte buf (i * s.stride_w + 2 * j)))
          (readByte buf (i * s.stride_w + (2 * j + 1)))) CRC) := by
    funext x i
    rw [foldl_flatMap]
    rfl
  rw [hfun]

/-- The Cb loop is the fold of the table update over the Cb read offsets. -/
theorem cbPass_eq (s : GstVideocrc) (buf : Nat → Nat) (c : Nat) :
    cbPass s buf c = (cb_read_offsets s).foldl
      (fun CRC off => planarStep s.crc32bit_table CRC (readByte buf off)) c := by
  unfold cbPass cb_read_offsets
  rw [foldl_flatMap]
  have hfun : (fun (x : Nat) (i : Nat) =>
      ((List.range ((s.width + 1) / 2)).map (fun t =>
        s.stride_w * s.stride_h + i * s.stride_w + 2 * t)).foldl
        (fun CRC off => planarStep s.crc32bit_table CRC (readByte buf off)) x) =
      (fun CRC i => (List.range ((s.width + 1) / 2)).foldl (fun CRC t =>
        planarStep s.crc32bit_table CRC
          (readByte buf (s.stride_w * s.stride_h + i * s.stride_w + 2 * t))) CRC) := by
    funext x i
    rw [List.foldl_map]
  rw [hfun]

/-- The Cr loop is the fold of the table update over the Cr read offsets. -/
theorem crPass_eq (s : GstVideocrc) (buf : Nat → Nat) (c : Nat) :
    crPass s buf c = (cr_read_offsets s).foldl
      (fun CRC off => planarStep s.crc32bit_table CRC (readByte buf off)) c := by
  unfold crPass cr_read_offsets
  rw [foldl_flatMap]
  have hfun : (fun (x : Nat) (i : Nat) =>
      ((List.range ((s.width + 1) / 2)).map (fun t =>
        s.stride_w * s.stride_h + i * s.stride_w + (2 * t + 1))).foldl
        (fun CRC off => planarStep s.crc32bit_table CRC (readByte buf off)) x) =
      (fun CRC i => (List.range ((s.width + 1) / 2)).foldl (fun CRC t =>
        planarStep s.crc32bit_table CRC
          (readByte buf (s.stride_w * s.stride_h + i * s.stride_w + (2 * t + 1)))) CRC) := by
    funext x i
    rw [List.foldl_map]
  rw [hfun]

/-- Masking with ~(2^k - 1) inside 32 bits rounds down to a multiple of 2^k. -/
theorem land_high_bits (x k : Nat) (hk : k ≤ 32) (hx : x < 2 ^ 32) :
    x &&& (2 ^ 32 - 2 ^ k) = 2 ^ k * (x / 2 ^ k) := by
  have hmask : (2 : Nat) ^ 32 - 2 ^ k = (2 ^ (32 - k) - 1) <<< k := by
    rw [Nat.shiftLeft_eq, Nat.sub_mul, one_mul, ← Nat.pow_add, Nat.sub_add_cancel hk]
  have hrhs : 2 ^ k * (x / 2 ^ k) = (x >>> k) <<< k := by
    rw [Nat.shiftRight_eq_div_pow, Nat.shiftLeft_eq, Nat.mul_comm]
  rw [hmask, hrhs]
  apply Nat.eq_of_testBit_eq
  intro i
  rw [Nat.testBit_land, Nat.testBit_shiftLeft, Nat.testBit_shiftLeft,
    Nat.testBit_shiftRight, Nat.testBit_two_pow_sub_one]
  by_cases hik : i ≥ k
  · by_cases hi32 : i < 32
    · have h1 : i - k < 32 - k := by omega
      have h2 : k + (i - k) = i := by omega
      simp [hik, h1, h2]
    · have hxb : x.testBit i = false :=
        Nat.testBit_eq_false_of_lt
          (lt_of_lt_of_le hx (Nat.pow_le_pow_right (by norm_num) (by omega)))
      have h1 : ¬ i - k < 32 - k := by omega
      have h2 : k + (i - k) = i := by omega
      simp [hik, h1, h2, hxb]
  · simp [hik]

/-- ALIGN to 128 is rounding up to the next multiple of 128 when no 32-bit
overflow occurs. -/
theorem ALIGN_128_eq (n : Nat) (hn : n + 127 < 2 ^ 32) :
    ALIGN n 128 = 128 * ((n + 127) / 128) := by
  have h1 : ALIGN n 128 = (n + 127) &&& (2 ^ 32 - 2 ^ 7) := by
    unfold ALIGN
    norm_num
  rw [h1, land_high_bits (n + 127) 7 (by norm_num) hn]
  norm_num

/-- The 128-aligned stride is at least the width. -/
theorem ALIGN_128_ge (n : Nat) (hn : n + 127 < 2 ^ 32) : n ≤ ALIGN n 128 := by
  rw [ALIGN_128_eq n hn]
  have h1 := Nat.div_add_mod (n + 127) 128
  have h2 : (n + 127) % 128 < 128 := Nat.mod_lt _ (by norm_num)
  omega

/-- Consecutive pair reads starting at a base cover an even initial segment of
columns. -/
theorem range_pair_flatMap (b : Nat) :
    ∀ n : Nat, (List.range n).flatMap (fun j => [b + 2 * j, b + (2 * j + 1)]) =
      (List.range (2 * n)).map (fun c => b + c) := by
  intro n
  induction n with
  | zero => rfl
  | succ m ih =>
    rw [List.range_succ, List.flatMap_append, ih]
    have h2 : 2 * (m + 1) = 2 * m + 1 + 1 := by ring
    rw [h2, List.range_succ, List.range_succ]
    simp [List.append_assoc]

/-- In the row-major offset enumeration with rows shorter than the stride,
every in-range offset occurs exactly once. -/
theorem count_row_offsets (stride n : Nat) (hn : n ≤ stride) :
    ∀ h r c : Nat, r < h → c < n →
      ((List.range h).flatMap (fun i =>
        (List.range n).map (fun k => i * stride + k))).count (r * stride + c) = 1 := by
  intro h
  induction h with
  | zero =>
    intro r c hr _
    omega
  | succ m ih =>
    intro r c hr hc
    rw [List.range_succ, List.flatMap_append, List.count_append]
    have hrow : ([m].flatMap (fun i => (List.range n).map (fun k => i * stride + k))) =
        (List.range n).map (fun k => m * stride + k) := by
      simp
    rw [hrow]
    by_cases hrm : r < m
    · rw [ih r c hrm hc]
      have hnot : (r * stride + c) ∉ (List.range n).map (fun k => m * stride + k) := by
        intro hmem
        rcases List.mem_map.mp hmem with ⟨k, hk, heq⟩
        have hkn : k < n := List.mem_range.mp hk
        have hmul : (r + 1) * stride ≤ m * stride :=
          mul_le_mul_right' (by omega) stride
        rw [Nat.add_mul, one_mul] at hmul
        omega
      rw [List.count_eq_zero.mpr hnot]
    · have hrm' : r = m := by omega
      subst hrm'
      have hpre : (r * stride + c) ∉ (List.range r).flatMap (fun i =>
          (List.range n).map (fun k => i * stride + k)) := by
        intro hmem
        rcases List.mem_flatMap.mp hmem with ⟨i, hi, hmem2⟩
        rcases List.mem_map.mp hmem2 with ⟨k, hk, heq⟩
        have hir : i < r := List.mem_range.mp hi
        have hkn : k < n := List.mem_range.mp hk
        have hmul : (i + 1) * stride ≤ r * stride :=
          mul_le_mul_right' (by omega) stride
        rw [Nat.add_mul, one_mul] at hmul
        omega
      rw [List.count_eq_zero.mpr hpre]
      have hinj : Function.Injective (fun k : Nat => r * stride + k) := by
        intro a b hab
        simpa using hab
      have hnd : ((List.range n).map (fun k => r * stride + k)).Nodup :=
        (List.nodup_range n).map hinj
      have hmem : (r * stride + c) ∈ (List.range n).map (fun k => r * stride + k) :=
        List.mem_map.mpr ⟨c, List.mem_range.mpr hc, rfl⟩
      rw [List.count_eq_one_of_mem hnd hmem]

/-- The transform always advances the frame counter by one and stamps the
emitted record with the advanced counter. -/
theorem transform_frame_step (s : GstVideocrc) (b : GstBufferKind) :
    (gst_videocrc_transform_frame_ip s b).2.1.frame_num = s.frame_num + 1 ∧
    (gst_videocrc_transform_frame_ip s b).2.2.frame_index = s.frame_num + 1 :=
  ⟨rfl, rfl⟩

/-- Sequential processing emits consecutive frame numbers continuing from the
current counter, and leaves the counter advanced by the number of frames. -/
theorem process_indices : ∀ (bufs : List GstBufferKind) (s : GstVideocrc),
    (gst_videocrc_process s bufs).2.map FrameRecord.frame_index =
      List.range' (s.frame_num + 1) bufs.length ∧
    (gst_videocrc_process s bufs).1.frame_num = s.frame_num + bufs.length := by
  intro bufs
  induction bufs with
  | nil =>
    intro s
    exact ⟨rfl, rfl⟩
  | cons b bs ih =>
    intro s
    have hstep := transform_frame_step s b
    have hrec := ih (gst_videocrc_transform_frame_ip s b).2.1
    rw [hstep.1] at hrec
    constructor
    · show (gst_videocrc_transform_frame_ip s b).2.2.frame_index ::
        (gst_videocrc_process (gst_videocrc_transform_frame_ip s b).2.1 bs).2.map
          FrameRecord.frame_index = _
      rw [List.length_cons, List.range'_succ, hstep.2, hrec.1]
    · show (gst_videocrc_process (gst_videocrc_transform_frame_ip s b).2.1 bs).1.frame_num = _
      rw [hrec.2, List.length_cons]
      omega

/-- A fold of a constant-step body over List.range is function iteration. -/
theorem foldl_const_iterate {α : Type} (f : α → α) : ∀ (n : Nat) (x : α),
    (List.range n).foldl (fun r _ => f r) x = f^[n] x := by
  intro n
  induction n with
  | zero => intro x; rfl
  | succ m ih =>
    intro x
    rw [List.range_succ, List.foldl_append, ih, Function.iterate_succ_apply']
    rfl

/-- Masking a value below 256 with 0xFF changes nothing. -/
theorem land_255_eq (x : Nat) (hx : x < 256) : x &&& 255 = x := by
  apply Nat.eq_of_testBit_eq
  intro i
  rw [Nat.testBit_land]
  have h255 : (255 : Nat) = 2 ^ 8 - 1 := by norm_num
  rw [h255, Nat.testBit_two_pow_sub_one]
  by_cases hi : i < 8
  · simp [hi]
  · have h256 : (256 : Nat) ≤ 2 ^ i := by
      calc (256 : Nat) = 2 ^ 8 := by norm_num
        _ ≤ 2 ^ i := Nat.pow_le_pow_right (by norm_num) (by omega)
    have hxb : x.testBit i = false :=
      Nat.testBit_eq_false_of_lt (lt_of_lt_of_le hx h256)
    simp [hi, hxb]

/-- One table-generation step stays below 2^32 when the polynomial does. -/
theorem crc32_table_step_lt (P : Nat) (hP : P < 2 ^ 32) (r : Nat) :
    crc32_table_step P r < 2 ^ 32 := by
  unfold crc32_table_step
  by_cases h : r.testBit 31
  · simp only [h, if_true]
    exact Nat.xor_lt_two_pow (Nat.mod_lt _ (by norm_num)) hP
  · simp only [h, if_false]
    exact Nat.mod_lt _ (by norm_num)

/-- Iterating the table-generation step stays below 2^32. -/
theorem iterate_step_lt (P : Nat) (hP : P < 2 ^ 32) : ∀ (n x : Nat), x < 2 ^ 32 →
    (crc32_table_step P)^[n] x < 2 ^ 32 := by
  intro n
  induction n with
  | zero => intro x hx; simpa using hx
  | succ m ih =>
    intro x hx
    rw [Function.iterate_succ_apply]
    exact ih _ (crc32_table_step_lt P hP x)

/-- Claim C5 (confirmed): for every 32-bit polynomial P and index i < 256, the
table entry at i is the result of seeding a 32-bit remainder with i << 24 and
performing 8 steps of shift-left (xoring with P when the top bit was set), all
with unsigned 32-bit wraparound; the entry itself stays a 32-bit value, and
the generator is a pure function of P. -/
theorem crc32bit_table_entries_spec (P i : Nat) (hP : P < 2 ^ 32) (hi : i < 256) :
    (gst_videocrc_init_crc32bit_table P).getD i 0 =
      (fun r => if r.testBit 31 then ((r <<< 1) % 2 ^ 32) ^^^ P
                else (r <<< 1) % 2 ^ 32)^[8] ((i <<< 24) % 2 ^ 32) ∧
    (gst_videocrc_init_crc32bit_table P).getD i 0 < 2 ^ 32 := by
  have hget : (gst_videocrc_init_crc32bit_table P).getD i 0 =
      (List.range 8).foldl (fun remainder _ => crc32_table_step P remainder)
        ((i <<< 24) % 2 ^ 32) := by
    unfold gst_videocrc_init_crc32bit_table
    rw [List.getD_eq_getElem _ _ (by rw [List.length_map, List.length_range]; exact hi)]
    rw [List.getElem_map, List.getElem_range]
  have hstep : (fun r => if r.testBit 31 then ((r <<< 1) % 2 ^ 32) ^^^ P
      else (r <<< 1) % 2 ^ 32) = crc32_table_step P := rfl
  constructor
  · rw [hget, hstep, foldl_const_iterate]
  · rw [hget, foldl_const_iterate]
    exact iterate_step_lt P hP 8 _ (Nat.mod_lt _ (by norm_num))

/-- Witness for C5 at the default polynomial and index 1. -/
theorem crc32bit_table_entries_spec_witness :
    (0x04C11DB7 : Nat) < 2 ^ 32 ∧ (1 : Nat) < 256 ∧
    (gst_videocrc_init_crc32bit_table 0x04C11DB7).getD 1 0 =
      (fun r => if r.testBit 31 then ((r <<< 1) % 2 ^ 32) ^^^ 0x04C11DB7
                else (r <<< 1) % 2 ^ 32)^[8] (((1 : Nat) <<< 24) % 2 ^ 32) :=
  ⟨by decide, by decide,
    (crc32bit_table_entries_spec 0x04C11DB7 1 (by decide) (by decide)).1⟩

/-- Claim C10 (confirmed): for a 32-bit accumulator and a byte, the unmasked
linear-path index (CRC >> 24) ^ b is below 256, so the 256-entry table lookup
is in bounds, and the linear per-byte update agrees with the planar update
that masks the index with 0xFF. -/
theorem linear_index_in_bounds_and_step_eq (table : List Nat) (CRC b : Nat)
    (hc : CRC < 2 ^ 32) (hb : b < 256) :
    ((CRC >>> 24) ^^^ b) < 256 ∧ linearStep table CRC b = planarStep table CRC b := by
  have h24 : CRC >>> 24 < 256 := by
    rw [Nat.shiftRight_eq_div_pow]
    apply Nat.div_lt_of_lt_mul
    calc CRC < 2 ^ 32 := hc
      _ = 2 ^ 24 * 256 := by norm_num
  have hx : (CRC >>> 24) ^^^ b < 256 := by
    have h8 : (256 : Nat) = 2 ^ 8 := by norm_num
    rw [h8] at h24 hb ⊢
    exact Nat.xor_lt_two_pow h24 hb
  refine ⟨hx, ?_⟩
  unfold linearStep planarStep
  rw [land_255_eq _ hx]

/-- Witness for C10 at a concrete accumulator, byte and table. -/
theorem linear_index_in_bounds_and_step_eq_witness :
    (7 : Nat) < 2 ^ 32 ∧ (9 : Nat) < 256 ∧
    (((7 : Nat) >>> 24) ^^^ 9) < 256 ∧ linearStep [] 7 9 = planarStep [] 7 9 :=
  ⟨by decide, by decide,
    (linear_index_in_bounds_and_step_eq [] 7 9 (by decide) (by decide)).1,
    (linear_index_in_bounds_and_step_eq [] 7 9 (by decide) (by decide)).2⟩

/-- Claim C3 (confirmed): the planar frame checksum is the three-stage
cascade in the fixed order luma, Cb, Cr: the accumulator starts at 0, is
complemented once after the luma plane, the Cb digest continues from that
complemented value with no reset and is complemented after it is consumed,
the Cr digest continues from the post-Cb complement, and one final complement
yields the frame checksum. -/
theorem planar_crc_three_stage_cascade (s : GstVideocrc) (buf : Nat → Nat) :
    gst_videocrc_planar_crc s buf =
      compl32 (planeDigest s.crc32bit_table
        (compl32 (planeDigest s.crc32bit_table
          (compl32 (planeDigest s.crc32bit_table 0
            (bytesAt buf (luma_read_offsets s))))
          (bytesAt buf (cb_read_offsets s))))
        (bytesAt buf (cr_read_offsets s))) := by
  unfold gst_videocrc_planar_crc planeDigest bytesAt
  rw [lumaPass_eq, cbPass_eq, crPass_eq, List.foldl_map, List.foldl_map,
    List.foldl_map]

/-- Counterexample for C1: at a negotiated geometry whose reported
second-plane offset (4) differs from stride_w * stride_h (4096), the Cb reads
the code performs are not at the offsets the specification describes. -/
theorem cb_reads_ignore_negotiated_offset :
    cb_read_offsets (gst_videocrc_set_info 2 2 6 4 gst_videocrc_init) ≠
      spec_cb_read_offsets (gst_videocrc_set_info 2 2 6 4 gst_videocrc_init) := by
  decide

/-- Claim C1 (amended): in planar mode, for every negotiated geometry, the Cb
loop folds exactly the bytes at ALIGN(width,128) * ALIGN(height,32) +
i * ALIGN(width,128) + j for rows i in [0, height/2) and even columns j, and
the Cr loop the bytes at those offsets plus 1 — the chroma base is the
product of the padded dimensions, not the stored negotiated plane offset. -/
theorem chroma_reads_at_padded_plane_base (width height size offset : Nat)
    (s0 : GstVideocrc) (buf : Nat → Nat) (c c' : Nat) :
    cbPass (gst_videocrc_set_info width height size offset s0) buf c =
      ((List.range (height / 2)).flatMap (fun i =>
        (List.range ((width + 1) / 2)).map (fun j =>
          ALIGN width 128 * ALIGN height 32 + i * ALIGN width 128 + 2 * j))).foldl
        (fun CRC off => planarStep s0.crc32bit_table CRC (readByte buf off)) c ∧
    crPass (gst_videocrc_set_info width height size offset s0) buf c' =
      ((List.range (height / 2)).flatMap (fun i =>
        (List.range ((width + 1) / 2)).map (fun j =>
          ALIGN width 128 * ALIGN height 32 + i * ALIGN width 128 + (2 * j + 1)))).foldl
        (fun CRC off => planarStep s0.crc32bit_table CRC (readByte buf off)) c' := by
  constructor
  · rw [cbPass_eq]
    rfl
  · rw [crPass_eq]
    rfl

/-- Counterexample for C4: at negotiated width 1, height 1 the luma loop
performs no read at all (width >> 1 = 0), so the byte at offset 0 — column 0
of row 0, inside the first `width` columns — is never fed to the update. -/
theorem luma_coverage_fails_odd_width :
    ¬ (∀ r < (gst_videocrc_set_info 1 1 2 1 gst_videocrc_init).height,
        ∀ c < (gst_videocrc_set_info 1 1 2 1 gst_videocrc_init).width,
          (luma_read_offsets (gst_videocrc_set_info 1 1 2 1 gst_videocrc_init)).count
            (r * (gst_videocrc_set_info 1 1 2 1 gst_videocrc_init).stride_w + c) = 1) := by
  decide

/-- Claim C4 (amended): for every negotiated geometry, the luma traversal
visits, for each row r in [0, height), exactly the bytes at offsets
r * ALIGN(width,128) + c for c in [0, 2 * (width / 2)), each exactly once;
when width is even this is all `width` columns, when width is odd the last
column is skipped by the byte-pair inner loop. -/
theorem luma_coverage_even_columns (width height size offset : Nat)
    (s0 : GstVideocrc) (hw : width + 127 < 2 ^ 32) :
    luma_read_offsets (gst_videocrc_set_info width height size offset s0) =
      (List.range height).flatMap (fun r =>
        (List.range (2 * (width / 2))).map (fun c => r * ALIGN width 128 + c)) ∧
    ∀ r < height, ∀ c < 2 * (width / 2),
      (luma_read_offsets (gst_videocrc_set_info width height size offset s0)).count
        (r * ALIGN width 128 + c) = 1 := by
  have ha : luma_read_offsets (gst_videocrc_set_info width height size offset s0) =
      (List.range height).flatMap (fun r =>
        (List.range (2 * (width / 2))).map (fun c => r * ALIGN width 128 + c)) := by
    show (List.range height).flatMap (fun i =>
        (List.range (width / 2)).flatMap (fun j =>
          [i * ALIGN width 128 + 2 * j, i * ALIGN width 128 + (2 * j + 1)])) = _
    exact congrArg _ (funext fun i => range_pair_flatMap (i * ALIGN width 128) (width / 2))
  refine ⟨ha, ?_⟩
  intro r hr c hc
  rw [ha]
  have h1 : 2 * (width / 2) ≤ width := by omega
  have h2 : width ≤ ALIGN width 128 := ALIGN_128_ge width hw
  exact count_row_offsets (ALIGN width 128) (2 * (width / 2)) (by omega) height r c hr hc

/-- Witness for C4 at width 2, height 1: the offset of row 0, column 0 is
visited exactly once. -/
theorem luma_coverage_even_columns_witness :
    (2 : Nat) + 127 < 2 ^ 32 ∧
    (luma_read_offsets (gst_videocrc_set_info 2 1 2 1 gst_videocrc_init)).count
      (0 * ALIGN 2 128 + 0) = 1 :=
  ⟨by decide,
    (luma_coverage_even_columns 2 1 2 1 gst_videocrc_init (by decide)).2
      0 (by decide) 0 (by decide)⟩

/-- Claim C2 evaluated at a failing input: at negotiated width 4, height 4,
with an ion buffer whose mapped region is 4096 bytes, the planar engine reads
offset 4227 = stride_w * stride_h + 1 * stride_w + 3, past the view's bound —
no bound check exists in the code. -/
theorem planar_read_exceeds_mapped_size :
    ∃ off ∈ planar_read_offsets (gst_videocrc_set_info 4 4 24 16 gst_videocrc_init),
      4096 ≤ off :=
  ⟨4227, by decide, by decide⟩

/-- Claim C6 evaluated at a failing input: for an ion frame whose mapping
failed (mapOk = false), the transform still returns GST_FLOW_OK, still
increments the frame counter, and still emits a checksum record — the mmap
result is never checked. -/
theorem transform_ok_despite_map_failure :
    (gst_videocrc_transform_frame_ip (gst_videocrc_set_info 2 2 6 4 gst_videocrc_init)
        (GstBufferKind.ion 3 4096 0 false (fun _ => 0))).1 = GstFlowReturn.ok ∧
    (gst_videocrc_transform_frame_ip (gst_videocrc_set_info 2 2 6 4 gst_videocrc_init)
        (GstBufferKind.ion 3 4096 0 false (fun _ => 0))).2.1.frame_num = 1 ∧
    (gst_videocrc_transform_frame_ip (gst_videocrc_set_info 2 2 6 4 gst_videocrc_init)
        (GstBufferKind.ion 3 4096 0 false (fun _ => 0))).2.2.frame_index = 1 :=
  ⟨rfl, rfl, rfl⟩

/-- Claim C7 (confirmed): changing the log destination is rejected — FALSE is
returned and the whole state, the stored filename included, is left
unchanged — whenever the element is in a state other than READY or NULL; in
READY or NULL the new location (or NULL, which disables logging) replaces the
stored filename and TRUE is returned. -/
theorem set_location_state_machine (s : GstVideocrc) (st : GstState)
    (loc : Option Nat) :
    gst_videocrc_set_location s st loc =
      if st = GstState.ready ∨ st = GstState.null then
        (true, { s with filename := loc })
      else (false, s) := by
  cases st <;> rfl

/-- Claim C8 (confirmed): writing the crc-mask property updates only the
crc_mask field: the stored CRC table and every other field are unchanged,
and on the constructed instance the table remains the one generated from the
default mask at construction time. -/
theorem crc_mask_set_leaves_table_unchanged (s : GstVideocrc) (v : Nat) :
    (gst_videocrc_set_property s (GProperty.crc_mask v)).crc32bit_table =
      s.crc32bit_table ∧
    (gst_videocrc_set_property s (GProperty.crc_mask v)).frame_num = s.frame_num ∧
    (gst_videocrc_set_property s (GProperty.crc_mask v)).crc = s.crc ∧
    (gst_videocrc_set_property s (GProperty.crc_mask v)).logfile = s.logfile ∧
    (gst_videocrc_set_property s (GProperty.crc_mask v)).filename = s.filename ∧
    (gst_videocrc_set_property s (GProperty.crc_mask v)).width = s.width ∧
    (gst_videocrc_set_property s (GProperty.crc_mask v)).height = s.height ∧
    (gst_videocrc_set_property s (GProperty.crc_mask v)).stride_w = s.stride_w ∧
    (gst_videocrc_set_property s (GProperty.crc_mask v)).stride_h = s.stride_h ∧
    (gst_videocrc_set_property s (GProperty.crc_mask v)).offset = s.offset ∧
    (gst_videocrc_set_property s (GProperty.crc_mask v)).size = s.size ∧
    (gst_videocrc_set_property s (GProperty.crc_mask v)).crc_mask = v ∧
    (gst_videocrc_set_property gst_videocrc_init (GProperty.crc_mask v)).crc32bit_table =
      gst_videocrc_init_crc32bit_table GST_VIDEO_DEFAULT_CRC_MASK :=
  ⟨rfl, rfl, rfl, rfl, rfl, rfl, rfl, rfl, rfl, rfl, rfl, rfl, rfl⟩

/-- Claim C9 (confirmed): starting from a state whose frame counter is zero,
processing N frames sequentially emits records with frame indices exactly
1, 2, ..., N in order — every per-frame step increments the counter by one
before emitting — and leaves the counter at N. -/
theorem frame_indices_one_to_n (s : GstVideocrc) (bufs : List GstBufferKind)
    (h : s.frame_num = 0) :
    (gst_videocrc_process s bufs).2.map FrameRecord.frame_index =
      List.range' 1 bufs.length ∧
    (gst_videocrc_process s bufs).1.frame_num = bufs.length := by
  have hp := process_indices bufs s
  rw [h] at hp
  simpa using hp

/-- Witness for C9 on the freshly constructed instance and two frames. -/
theorem frame_indices_one_to_n_witness :
    gst_videocrc_init.frame_num = 0 ∧
    (gst_videocrc_process gst_videocrc_init
        [GstBufferKind.linear [], GstBufferKind.linear []]).2.map
      FrameRecord.frame_index = List.range' 1 2 :=
  ⟨rfl, (frame_indices_one_to_n gst_videocrc_init
      [GstBufferKind.linear [], GstBufferKind.linear []] rfl).1⟩
